import Mathlib

/-!
Formal model of the NCL price-watcher (src/script.py).

The script fetches an HTML page, extracts a (base fare, taxes/fees) pair
of prices with a three-strategy fallback pipeline (`parse_price`),
compares the pair against a JSON snapshot file (`load_last` / `save_last`),
and sends a Telegram message when the pair changed (`run`).

Numeric values are modelled as rationals: every finite Python float is a
rational, the extracted decimals are parsed exactly, and the script's
comparisons and JSON round-trips are exact on floats, so the rational
model preserves all (in)equalities the script observes.
-/

namespace NclWatch

/-! ### Character classes used by the script's regular expressions -/

/-- Characters matched by `[0-9]`. -/
def isDigitC (c : Char) : Bool := decide ('0' ≤ c) && decide (c ≤ '9')

/-- Characters matched by `[0-9,]`. -/
def isDigCom (c : Char) : Bool := isDigitC c || decide (c = ',')

/-- Characters matched by Python's `\s` (ASCII part; the script's inputs
are ASCII whitespace). -/
def isWS (c : Char) : Bool :=
  decide (c = ' ') || decide (c = '\t') || decide (c = '\n') || decide (c = '\r') ||
  decide (c = Char.ofNat 11) || decide (c = Char.ofNat 12)

/-- Characters matched by `["\']`. -/
def isQuote (c : Char) : Bool := decide (c = '"') || decide (c = Char.ofNat 39)

/-! ### A small backtracking regex engine

The script uses `re.search` with patterns built from literals, character
classes, `*`, `+`, `?` and one capture group.  `RE` is exactly that
pattern language; `reMatch` enumerates matches of a prefix of the input
in Python's backtracking preference order (greedy quantifiers first), and
`reSearch` returns group 1 of the leftmost-preferred match, which is the
only thing the script ever reads from a match object. -/

inductive RE : Type
| eps : RE
| cls : (Char → Bool) → RE
| seq : RE → RE → RE
| opt : RE → RE
| star : RE → RE
| grp : RE → RE

/-- Later (rightmost) capture wins, as in Python when a group matches twice. -/
def mergeCaps (a b : Option (List Char)) : Option (List Char) :=
  match b with
  | some g => some g
  | none => a

/-- Greedy Kleene-star loop over a body matcher `m`: try one more
iteration of the body first, then stop.  `fuel` only bounds the number
of unrollings; with `fuel ≥ s.length + 1` and a body that always
consumes input (every star body in the script's patterns is a single
character class) this is the exact greedy `*` semantics. -/
def starLoop (m : List Char → List (List Char × Option (List Char))) :
    Nat → List Char → List (List Char × Option (List Char))
| 0, s => [(s, none)]
| fuel + 1, s =>
    ((m s).flatMap (fun r1 =>
      (starLoop m fuel r1.1).map (fun r2 => (r2.1, mergeCaps r1.2 r2.2)))) ++ [(s, none)]

/-- All ways `r` can match a prefix of `s`, in Python's backtracking
preference order (greedy quantifiers first); each result is
(unconsumed suffix, group-1 capture). -/
def reMatch : RE → List Char → List (List Char × Option (List Char))
| .eps, s => [(s, none)]
| .cls _, [] => []
| .cls p, c :: cs => if p c then [(cs, none)] else []
| .seq a b, s =>
    (reMatch a s).flatMap (fun r1 =>
      (reMatch b r1.1).map (fun r2 => (r2.1, mergeCaps r1.2 r2.2)))
| .opt r, s => reMatch r s ++ [(s, none)]
| .star r, s => starLoop (fun t => reMatch r t) (s.length + 1) s
| .grp r, s =>
    (reMatch r s).map (fun r1 => (r1.1, some (s.take (s.length - r1.1.length))))

/-- Python `re.search(pattern, s).group(1)`: group 1 of the match at the
leftmost position where the pattern matches, `none` when the pattern
matches nowhere. -/
def reSearch : RE → List Char → Option (List Char)
| r, [] =>
  match reMatch r [] with
  | res :: _ => some (res.2.getD [])
  | [] => none
| r, c :: rest =>
  match reMatch r (c :: rest) with
  | res :: _ => some (res.2.getD [])
  | [] => reSearch r rest

/-- Concatenation of a list of regexes. -/
def rcat (l : List RE) : RE := l.foldr RE.seq RE.eps

/-- One-or-more, as `r r*`. -/
def rplus (r : RE) : RE := RE.seq r (RE.star r)

/-- Literal character. -/
def chr (c : Char) : RE := RE.cls (fun x => decide (x = c))

/-- Case-insensitive literal character (`re.I`). -/
def chrI (c : Char) : RE := RE.cls (fun x => decide (x = c.toLower) || decide (x = c.toUpper))

/-- Case-insensitive literal string. -/
def litI (s : String) : RE := rcat (s.data.map chrI)

def wsStar : RE := RE.star (RE.cls isWS)

/-- The capture `([0-9,]+\.?[0-9]*)` used for amounts with optional cents. -/
def amountGrp : RE :=
  RE.grp (rcat [rplus (RE.cls isDigCom), RE.opt (chr '.'), RE.star (RE.cls isDigitC)])

/-- The capture `([0-9,]+)` used for whole-dollar amounts. -/
def intGrp : RE := RE.grp (rplus (RE.cls isDigCom))

/-- Pattern `\$([0-9,]+\.?[0-9]*)` (strategy 1 tax amount). -/
def reTaxDollar : RE := rcat [chr '$', amountGrp]

/-- Pattern `\$([0-9,]+)\s*PP\s*/\s*USD` with `re.I` (strategy 2 base fare,
and the first base-fare pattern of strategy 3, which is the same regex text). -/
def rePPUSD : RE :=
  rcat [chr '$', intGrp, wsStar, chrI 'P', chrI 'P', wsStar, chr '/', wsStar,
        chrI 'U', chrI 'S', chrI 'D']

/-- Pattern `Taxes,\s*fees\s*and\s*port\s*expenses\s*\$([0-9,]+\.?[0-9]*)` with `re.I`. -/
def reTaxLabel : RE :=
  rcat [litI "Taxes,", wsStar, litI "fees", wsStar, litI "and", wsStar, litI "port",
        wsStar, litI "expenses", wsStar, chr '$', amountGrp]

/-- Pattern `\+\s*Taxes,\s*fees\s*and\s*port\s*expenses\s*\$([0-9,]+\.?[0-9]*)` with `re.I`. -/
def reTaxLabelPlus : RE := rcat [chr '+', wsStar, reTaxLabel]

/-- Pattern `"price":\s*"([0-9,]+)"` with `re.I`. -/
def reJsonPrice : RE :=
  rcat [chr '"', litI "price", chr '"', chr ':', wsStar, chr '"', intGrp, chr '"']

/-- Pattern `priceFrom["\']?\s*:\s*["\']?([0-9,]+)` with `re.I`. -/
def rePriceFrom : RE :=
  rcat [litI "priceFrom", RE.opt (RE.cls isQuote), wsStar, chr ':', wsStar,
        RE.opt (RE.cls isQuote), intGrp]

/-- Pattern `taxesAndFees["\']?\s*:\s*["\']?([0-9,]+\.?[0-9]*)` with `re.I`. -/
def reTaxJson : RE :=
  rcat [litI "taxesAndFees", RE.opt (RE.cls isQuote), wsStar, chr ':', wsStar,
        RE.opt (RE.cls isQuote), amountGrp]

/-! ### Numeric parsing and text helpers -/

/-- Value of a digit string, most significant digit first. -/
def digitsToNat (l : List Char) : ℕ :=
  l.foldl (fun n c => 10 * n + (c.toNat - '0'.toNat)) 0

def allDigits (l : List Char) : Bool := l.all isDigitC

/-- Python `float(s)` on the unsigned decimal literals the script feeds it
(digit/comma/dot strings coming from its regex captures and JSON price
fields): `none` models a raised `ValueError`. -/
def parseFloat (l : List Char) : Option ℚ :=
  let intPart := l.takeWhile (fun c => decide (c ≠ '.'))
  let restPart := l.dropWhile (fun c => decide (c ≠ '.'))
  match restPart with
  | [] => if intPart ≠ [] && allDigits intPart then some (digitsToNat intPart : ℚ) else none
  | _ :: frac =>
    if allDigits intPart && allDigits frac && (intPart ≠ [] || frac ≠ []) then
      some ((digitsToNat intPart : ℚ) + (digitsToNat frac : ℚ) / (10 : ℚ) ^ frac.length)
    else none

/-- Python `s.replace(",", "")`. -/
def removeCommas (l : List Char) : List Char := l.filter (fun c => decide (c ≠ ','))

/-- Helper for `normWS`: `prevWS` records whether the previous character
was whitespace (already emitted as one space). -/
def normWSAux : Bool → List Char → List Char
| _, [] => []
| prevWS, c :: rest =>
  if isWS c then
    (if prevWS then [] else [' ']) ++ normWSAux true rest
  else c :: normWSAux false rest

/-- Python `re.sub(r"\s+", " ", text)`: each maximal whitespace run
becomes a single space. -/
def normWS (l : List Char) : List Char := normWSAux false l

/-- Whether `needle` occurs at the head of `hay`. -/
def segAt : List Char → List Char → Bool
| [], _ => true
| _ :: _, [] => false
| a :: as, b :: bs => decide (a = b) && segAt as bs

/-- Whether `needle` occurs contiguously anywhere in `hay`
(Python `needle in hay`). -/
def hasSeg (needle : List Char) : List Char → Bool
| [] => needle.isEmpty
| b :: bs => segAt needle (b :: bs) || hasSeg needle bs

/-! ### The document model

`parse_price` inspects the fetched HTML only through a fixed set of
queries (JSON-LD script contents, the `c544_disclaimer` div structure,
texts of price-like elements, the disclaimer's flattened text, and the
raw page text).  `Doc` records what those queries return, which is the
whole interface the three strategies consume. -/

/-- Value of the `price` entry of a parsed JSON-LD object:
a JSON string, a JSON number, or something `float()` rejects with
`TypeError` (list, dict, null, ...). -/
inductive PyVal : Type
| pstr : String → PyVal
| pnum : ℚ → PyVal
| pother : PyVal
deriving DecidableEq

/-- One `<script type="application/ld+json">` tag, as strategy 1 sees it:
`json.loads` fails, or yields a non-dict (so `.get` raises
`AttributeError`), or yields a dict with optional `@type` and `price`
entries. -/
inductive ScriptData : Type
| parseFail : ScriptData
| nonDict : ScriptData
| dict : Option String → Option PyVal → ScriptData
deriving DecidableEq

/-- The queries `parse_price` makes against the parsed page:
* `scripts`: the JSON-LD script tags, in document order;
* `disc1`: the strategy-1 drill-down `div.c544_disclaimer` →
  `ul.c544_disclaimer_list` → for each `li.c544_disclaimer_list_item`
  its first `span`'s text (`none` when the `li` has no span);
* `priceTexts`: the texts of `span`/`div`/`p` elements whose class
  matches `price|cost|fare`, in document order;
* `discText`: `get_text()` of `div.c544_disclaimer`;
* `html`: the raw page text used by strategy 3. -/
structure Doc : Type where
  scripts : List ScriptData
  disc1 : Option (Option (List (Option String)))
  priceTexts : List String
  discText : Option String
  html : String
deriving DecidableEq

/-- Python `float(v)` on the `price` value of a JSON-LD offer:
`ok`, or `ValueError` (caught by the per-script handler), or
`TypeError` (not caught there, so it aborts strategy 1). -/
inductive FloatRes : Type
| ok : ℚ → FloatRes
| verr : FloatRes
| terr : FloatRes
deriving DecidableEq

def pyFloat : PyVal → FloatRes
| .pnum q => .ok q
| .pstr s =>
  match parseFloat s.data with
  | some q => .ok q
  | none => .verr
| .pother => .terr

/-- Outcome of processing one JSON-LD script in strategy 1's loop:
return a pair, `break` out of the loop, `continue` with the next
script, or abort the whole strategy with an uncaught exception. -/
inductive S1Out : Type
| ret : ℚ × ℚ → S1Out
| brk : S1Out
| cont : S1Out
| abort : S1Out
deriving DecidableEq

/-- Tax lookup of strategy 1: first disclaimer list item whose span has
nonempty text and matches `\$([0-9,]+\.?[0-9]*)`; returns the capture. -/
def itemTax : Option String → Option (List Char)
| some s => if s ≠ "" then reSearch reTaxDollar s.data else none
| none => none

def findTax1 (d : Option (Option (List (Option String)))) : Option (List Char) :=
  match d with
  | some (some items) => items.findSome? itemTax
  | _ => none

/-- Strategy 1's body for one JSON-LD script (src/script.py lines 90-114). -/
def s1Script (d : Doc) : ScriptData → S1Out
| .parseFail => .cont
| .nonDict => .abort
| .dict a p =>
  if a = some "Offer" then
    match p with
    | none => .cont
    | some pv =>
      match pyFloat pv with
      | .terr => .abort
      | .verr => .cont
      | .ok bp =>
        match findTax1 d.disc1 with
        | none => .brk
        | some g =>
          match parseFloat (removeCommas g) with
          | some tx => .ret (bp, tx)
          | none => .cont
  else .cont

def s1Loop (d : Doc) : List ScriptData → Option (ℚ × ℚ)
| [] => none
| sd :: rest =>
  match s1Script d sd with
  | .ret p => some p
  | .brk => none
  | .abort => none
  | .cont => s1Loop d rest

/-- Strategy 1: JSON-LD structured data (src/script.py lines 84-116). -/
def strategy1 (d : Doc) : Option (ℚ × ℚ) := s1Loop d d.scripts

/-- First nonempty text in `ts` matched by `r`; returns the capture
(strategy 2's loop over price-like elements). -/
def firstCapture (r : RE) (ts : List String) : Option (List Char) :=
  ts.findSome? (fun t => if t ≠ "" then reSearch r t.data else none)

/-- Strategy 2: HTML element scanning (src/script.py lines 118-149).
`none` covers base or taxes missing as well as a `ValueError` from
`float` on a comma-only capture, which strategy 2's blanket `except`
swallows. -/
def strategy2 (d : Doc) : Option (ℚ × ℚ) :=
  match firstCapture rePPUSD d.priceTexts with
  | none => none
  | some g =>
    match parseFloat (removeCommas g) with
    | none => none
    | some bp =>
      match d.discText with
      | none => none
      | some dt =>
        match reSearch reTaxLabel dt.data with
        | none => none
        | some tg =>
          match parseFloat (removeCommas tg) with
          | none => none
          | some tx => some (bp, tx)

/-- First pattern in `rs` that matches `s`; returns its capture
(strategy 3's ordered pattern lists). -/
def firstPat (rs : List RE) (s : List Char) : Option (List Char) :=
  rs.findSome? (fun r => reSearch r s)

/-- The ordered base-fare patterns of strategy 3. -/
def farePatterns : List RE := [rePPUSD, reJsonPrice, rePriceFrom]

/-- The ordered taxes/fees patterns of strategy 3. -/
def taxPatterns : List RE := [reTaxLabel, reTaxLabelPlus, reTaxJson]

/-- Strategy 3: regex fallback over the whitespace-normalized page text
(src/script.py lines 151-188). -/
def strategy3 (d : Doc) : Option (ℚ × ℚ) :=
  match firstPat farePatterns (normWS d.html.data) with
  | none => none
  | some g =>
    match parseFloat (removeCommas g) with
    | none => none
    | some bp =>
      match firstPat taxPatterns (normWS d.html.data) with
      | none => none
      | some tg =>
        match parseFloat (removeCommas tg) with
        | none => none
        | some tx => some (bp, tx)

/-- The full extraction pipeline `parse_price` (src/script.py lines
75-191): the strategies are tried in order and the first full success
wins; `none` models the final `raise ValueError(...)`. -/
def parse_price (d : Doc) : Option (ℚ × ℚ) :=
  match strategy1 d with
  | some p => some p
  | none =>
    match strategy2 d with
    | some p => some p
    | none => strategy3 d

/-! ### Snapshot store (`load_last` / `save_last`) -/

/-- A parsed JSON value, as `json.load` returns it for the snapshot file
(numbers, arrays, strings, booleans, null; JSON objects do not occur in
snapshot data).  Numeric round-trips through the file are exact for
Python floats, so numbers are carried directly. -/
inductive JVal : Type
| num : ℚ → JVal
| arr : List JVal → JVal
| jstr : String → JVal
| jbool : Bool → JVal
| jnull : JVal

mutual

/-- Structural equality test on JSON values. -/
def JVal.beq : JVal → JVal → Bool
| .num a, .num b => decide (a = b)
| .arr xs, .arr ys => JVal.beqList xs ys
| .jstr a, .jstr b => decide (a = b)
| .jbool a, .jbool b => decide (a = b)
| .jnull, .jnull => true
| _, _ => false

/-- Structural equality test on lists of JSON values. -/
def JVal.beqList : List JVal → List JVal → Bool
| [], [] => true
| x :: xs, y :: ys => JVal.beq x y && JVal.beqList xs ys
| _, _ => false

end

theorem JVal.beq_iff : ∀ (a b : JVal), (JVal.beq a b = true) ↔ a = b := by
  intro a
  induction a using JVal.rec
    (motive_2 := fun l => ∀ m, (JVal.beqList l m = true) ↔ l = m) with
  | num q => intro b; cases b <;> simp [JVal.beq]
  | arr xs ih =>
      intro b
      cases b <;> simp [JVal.beq]
      exact ih _
  | jstr s => intro b; cases b <;> simp [JVal.beq]
  | jbool v => intro b; cases b <;> simp [JVal.beq]
  | jnull => intro b; cases b <;> simp [JVal.beq]
  | nil => rename_i m; cases m <;> simp [JVal.beqList]
  | cons x xs ihx ihxs => rename_i m; cases m <;> simp [JVal.beqList, ihx, ihxs]

instance : DecidableEq JVal := fun a b =>
  if h : JVal.beq a b = true then isTrue ((JVal.beq_iff a b).mp h)
  else isFalse (fun he => h ((JVal.beq_iff a b).mpr he))

/-- Decidable equality of `Except` results, so concrete cycle outcomes
can be computed by `decide`. -/
instance {e a : Type} [DecidableEq e] [DecidableEq a] : DecidableEq (Except e a) := fun x y =>
  match x, y with
  | .ok u, .ok v =>
    if h : u = v then isTrue (congrArg Except.ok h)
    else isFalse (fun hc => h (Except.ok.inj hc))
  | .error u, .error v =>
    if h : u = v then isTrue (congrArg Except.error h)
    else isFalse (fun hc => h (Except.error.inj hc))
  | .ok _, .error _ => isFalse (fun hc => Except.noConfusion hc)
  | .error _, .ok _ => isFalse (fun hc => Except.noConfusion hc)

/-- State of the snapshot file at the store path: missing, present but
unreadable (`json.JSONDecodeError` or `IOError` on read), or present
with parsed content `j`. -/
inductive StoreState : Type
| absent : StoreState
| malformed : StoreState
| content : JVal → StoreState
deriving DecidableEq

/-- The `load_last` function (src/script.py lines 194-203), together
with whether the warning branch printed (the read error is caught there,
never raised). -/
def load_last_full : StoreState → Option JVal × Bool
| .absent => (none, false)
| .malformed => (none, true)
| .content j => (some j, false)

/-- Value `run` receives from `load_last`. -/
def load_last (st : StoreState) : Option JVal := (load_last_full st).1

/-- The `save_last` function (src/script.py lines 206-214): writes the
JSON array `[base, taxes]`; an `IOError` (`writeOk = false`) is caught
and logged, leaving the previous file state in place. -/
def save_last (st : StoreState) (writeOk : Bool) (base taxes : ℚ) : StoreState :=
  if writeOk then .content (.arr [.num base, .num taxes]) else st

/-! ### Change detection (src/script.py line 252)

`run` evaluates `last is None or (base, taxes) != tuple(last)`.
`tuple(last)` raises `TypeError` when the loaded JSON value is not
iterable (a number, boolean or null); tuples compare elementwise with
Python `==`, under which floats equal numbers and booleans by numeric
value and nothing else. -/

/-- Python `tuple(v)` on a loaded JSON value: `error` models the
`TypeError` for non-iterable values; a string yields its characters. -/
def pyTuple : JVal → Except Unit (List JVal)
| .arr xs => .ok xs
| .jstr s => .ok (s.data.map (fun c => JVal.jstr (String.mk [c])))
| .num _ => .error ()
| .jbool _ => .error ()
| .jnull => .error ()

/-- Python `q == v` for a float `q` and a loaded JSON value `v`. -/
def pyEqNum (q : ℚ) : JVal → Bool
| .num a => decide (q = a)
| .jbool b => decide (q = (if b then 1 else 0))
| _ => false

/-- Python `(base, taxes) == t` for a tuple `t` of loaded JSON values. -/
def tupleEq2 (base taxes : ℚ) (xs : List JVal) : Bool :=
  match xs with
  | [x, y] => pyEqNum base x && pyEqNum taxes y
  | _ => false

/-- The change condition `last is None or (base, taxes) != tuple(last)`
of src/script.py line 252; `error` models the `TypeError` that
`tuple(last)` raises on a non-iterable stored value. -/
def has_changed (base taxes : ℚ) (last : Option JVal) : Except Unit Bool :=
  match last with
  | none => .ok true
  | some j => (pyTuple j).map (fun xs => ! tupleEq2 base taxes xs)

/-! ### Notification message formatting -/

/-- Round half to even, as Python's `format` does at exact ties. -/
def roundHalfEven (q : ℚ) : ℤ :=
  if q - ⌊q⌋ < 1 / 2 then ⌊q⌋
  else if (1 : ℚ) / 2 < q - ⌊q⌋ then ⌊q⌋ + 1
  else if 2 ∣ ⌊q⌋ then ⌊q⌋ else ⌊q⌋ + 1

/-- Insert a comma after every third character (input reversed digits). -/
def group3Aux : List Char → List Char
| [] => []
| [a] => [a]
| [a, b] => [a, b]
| [a, b, c] => [a, b, c]
| a :: b :: c :: d :: rest => a :: b :: c :: ',' :: group3Aux (d :: rest)

/-- Thousands grouping of a digit string, most significant digit first. -/
def groupThousands (ds : List Char) : List Char := (group3Aux ds.reverse).reverse

/-- Python `format(q, ",.{prec}f")` for the values the script formats:
round to `prec` decimals (half to even), group the integer part with
commas. -/
def fmtComma (prec : ℕ) (q : ℚ) : String :=
  let scaled := roundHalfEven (q * (10 : ℚ) ^ prec)
  let n := scaled.natAbs
  let ip := n / 10 ^ prec
  let fp := n % 10 ^ prec
  let fpDigits := Nat.toDigits 10 fp
  let sign := if scaled < 0 then "-" else ""
  let fracStr :=
    if prec = 0 then ""
    else "." ++ String.mk (List.replicate (prec - fpDigits.length) '0' ++ fpDigits)
  sign ++ String.mk (groupThousands (Nat.toDigits 10 ip)) ++ fracStr

/-- The monitored page URL (src/script.py lines 19-25). -/
def TARGET_URL : String :=
  "https://www.ncl.com/no/en/cruises/14-day-iceland-round-trip-london-reykjavik-belfast-and-paris-PRIMA14SOULEHBFSREYISAAKUGNRBGOSVGSOU?destinations=4294949354,4294949395,4294949385&sailMonths=4294949333&numberOfGuests=4294949461&sortBy=price&autoPopulate=f&from=resultpage&itineraryCode=PRIMA14SOULEHBFSREYISAAKUGNRBGOSVGSOU"

/-- The Telegram alert text built at src/script.py lines 254-258. -/
def buildMsg (base taxes : ℚ) : String :=
  "Norwegian Prima price update🚢 \n\n" ++
  "Base fare: $" ++ fmtComma 0 base ++ "\n" ++
  "Taxes/fees: $" ++ fmtComma 2 taxes ++ "\n" ++
  "Total: $" ++ fmtComma 2 (base + taxes) ++ "\n\n" ++
  TARGET_URL

/-! ### One cycle of the monitor loop (src/script.py lines 239-265) -/

/-- External circumstances of one cycle: the fetch outcome (`error`
models `fetch_html` raising after its retries are exhausted), the
snapshot file state, whether the Telegram POST returns 2xx, and whether
writing the snapshot file succeeds. -/
structure CycleEnv : Type where
  fetched : Except Unit Doc
  stored : StoreState
  notifyOk : Bool
  saveOk : Bool

/-- The body of the `try` block of one cycle.  `error` is an exception
reaching the cycle boundary (fetch failure, extraction failure, the
`TypeError` from comparing against a non-list snapshot, or a failed
Telegram POST); `ok (msg?, st)` is a normal finish with the message sent
(if any) and the resulting snapshot file state.  A failed Telegram POST
raises before `save_last`, so the file is not updated then. -/
def cycleBody (env : CycleEnv) : Except Unit (Option String × StoreState) :=
  match env.fetched with
  | .error e => .error e
  | .ok d =>
    match parse_price d with
    | none => .error ()
    | some (base, taxes) =>
      match has_changed base taxes (load_last env.stored) with
      | .error e => .error e
      | .ok false => .ok (none, env.stored)
      | .ok true =>
        if env.notifyOk then
          .ok (some (buildMsg base taxes), save_last env.stored env.saveOk base taxes)
        else .error ()

/-- Observable outcome of one cycle. -/
structure CycleResult : Type where
  notified : Option String
  newStore : StoreState
  errorLogged : Bool
deriving DecidableEq

/-- One iteration of the `while True` loop: the blanket
`except Exception` at the cycle boundary (src/script.py lines 262-263)
turns any exception into a logged error, after which the loop sleeps
and runs again — `runCycle` always returns, which is the model of the
process staying alive. -/
def runCycle (env : CycleEnv) : CycleResult :=
  match cycleBody env with
  | .error _ => ⟨none, env.stored, true⟩
  | .ok (msg, st) => ⟨msg, st, false⟩

/-! ### Startup configuration (src/script.py lines 225-232)

The module docstring declares `TELEGRAM_BOT_TOKEN` and
`TELEGRAM_CHAT_ID` as required environment variables, but `run`
hard-codes both values and never consults the environment, so the
`sys.exit` guard `if not (bot_token and chat_id)` is dead code. -/

/-- Python `os.environ.get(k)` over an environment listing. -/
def envLookup (env : List (String × String)) (k : String) : Option String :=
  (env.find? (fun kv => decide (kv.1 = k))).map (fun kv => kv.2)

/-- The bot token `run` actually uses, whatever the environment holds
(src/script.py line 227). -/
def usedBotToken (_env : List (String × String)) : String :=
  "7915288038:AAGzGuF0aMgaJoYYU-EzsA2tdIxRavQkjKc"

/-- The chat id `run` actually uses, whatever the environment holds
(src/script.py line 228). -/
def usedChatId (_env : List (String × String)) : String :=
  "-1002852664251"

/-- Whether `run` exits before the loop: `not (bot_token and chat_id)`,
i.e. either credential string is empty (src/script.py lines 231-232). -/
def startupExits (env : List (String × String)) : Bool :=
  (usedBotToken env).isEmpty || (usedChatId env).isEmpty

/-! ### Concrete documents used as evaluation inputs -/

/-- A page whose JSON-LD offer prices at 1899 and whose disclaimer list
carries the taxes line, as in the spec's examples. -/
def docExtract1899 : Doc :=
  ⟨[ScriptData.dict (some "Offer") (some (PyVal.pstr "1899"))],
   some (some [some "+ Taxes, fees and port expenses $493.55 USD"]),
   [], none, ""⟩

/-- The same page after a price rise to 1999. -/
def docExtract1999 : Doc :=
  ⟨[ScriptData.dict (some "Offer") (some (PyVal.pstr "1999"))],
   some (some [some "+ Taxes, fees and port expenses $493.55 USD"]),
   [], none, ""⟩

/-- A page with a JSON-LD offer price but no disclaimer section at all. -/
def docOfferNoTax : Doc :=
  ⟨[ScriptData.dict (some "Offer") (some (PyVal.pstr "1899"))],
   none, [], none, ""⟩

/-- A page with nothing any strategy can use. -/
def docEmpty : Doc := ⟨[], none, [], none, ""⟩

/-- A page whose price element and raw text carry a base fare with
cents, the form the whole-dollar patterns reject. -/
def docCents : Doc :=
  ⟨[], none, ["$1,899.50 PP / USD"], none, "$1,899.50 PP / USD"⟩

/-! ### Capture soundness of the matcher

The patterns capture through `([0-9,]+)`-style groups; the lemmas below
show every character of a returned capture satisfies the group's
character class, so `rePPUSD` can only ever capture digit/comma strings
— whole-dollar amounts. -/

/-- Every character class occurring in `r` implies `p`. -/
def ClsOnly (p : Char → Bool) : RE → Prop
| .eps => True
| .cls q => ∀ c, q c = true → p c = true
| .seq a b => ClsOnly p a ∧ ClsOnly p b
| .opt r => ClsOnly p r
| .star r => ClsOnly p r
| .grp r => ClsOnly p r

/-- Every capture group of `r` has a `ClsOnly p` body. -/
def GrpCls (p : Char → Bool) : RE → Prop
| .eps => True
| .cls _ => True
| .seq a b => GrpCls p a ∧ GrpCls p b
| .opt r => GrpCls p r
| .star r => GrpCls p r
| .grp r => ClsOnly p r

theorem starLoop_suffix (m : List Char → List (List Char × Option (List Char)))
    (hm : ∀ s res, res ∈ m s → ∃ n, res.1 = s.drop n) :
    ∀ (fuel : Nat) (s : List Char) (res : List Char × Option (List Char)),
      res ∈ starLoop m fuel s → ∃ n, res.1 = s.drop n := by
  intro fuel
  induction fuel with
  | zero =>
    intro s res h
    simp only [starLoop, List.mem_singleton] at h
    exact ⟨0, by simp [h]⟩
  | succ fuel ih =>
    intro s res h
    simp only [starLoop, List.mem_append, List.mem_flatMap, List.mem_map,
      List.mem_singleton] at h
    rcases h with ⟨r1, hr1, r2, hr2, hres⟩ | h
    · obtain ⟨n1, h1⟩ := hm s r1 hr1
      obtain ⟨n2, h2⟩ := ih r1.1 r2 hr2
      exact ⟨n1 + n2, by simp [← hres, h2, h1, List.drop_drop]⟩
    · exact ⟨0, by simp [h]⟩

theorem reMatch_suffix :
    ∀ (r : RE) (s : List Char) (res : List Char × Option (List Char)),
      res ∈ reMatch r s → ∃ n, res.1 = s.drop n := by
  intro r
  induction r with
  | eps =>
    intro s res h
    simp only [reMatch, List.mem_singleton] at h
    exact ⟨0, by simp [h]⟩
  | cls p =>
    intro s res h
    cases s with
    | nil => simp [reMatch] at h
    | cons c cs =>
      simp only [reMatch] at h
      split at h
      · simp only [List.mem_singleton] at h
        exact ⟨1, by simp [h]⟩
      · simp at h
  | seq a b iha ihb =>
    intro s res h
    simp only [reMatch, List.mem_flatMap, List.mem_map] at h
    obtain ⟨r1, hr1, r2, hr2, hres⟩ := h
    obtain ⟨n1, h1⟩ := iha s r1 hr1
    obtain ⟨n2, h1t⟩ := ihb _ r2 hr2
    exact ⟨n1 + n2, by simp [← hres, h1t, h1, List.drop_drop]⟩
  | opt r ih =>
    intro s res h
    simp only [reMatch, List.mem_append, List.mem_singleton] at h
    rcases h with h | h
    · exact ih s res h
    · exact ⟨0, by simp [h]⟩
  | star r ih =>
    intro s res h
    exact starLoop_suffix _ (fun t u hu => ih t u hu) _ s res h
  | grp r ih =>
    intro s res h
    simp only [reMatch, List.mem_map] at h
    obtain ⟨r1, hr1, hres⟩ := h
    obtain ⟨n, hn⟩ := ih s r1 hr1
    exact ⟨n, by simp [← hres, hn]⟩

theorem starLoop_consumed (p : Char → Bool)
    (m : List Char → List (List Char × Option (List Char)))
    (hm : ∀ s res, res ∈ m s →
      ∃ n, res.1 = s.drop n ∧ ∀ c ∈ s.take n, p c = true) :
    ∀ (fuel : Nat) (s : List Char) (res : List Char × Option (List Char)),
      res ∈ starLoop m fuel s →
      ∃ n, res.1 = s.drop n ∧ ∀ c ∈ s.take n, p c = true := by
  intro fuel
  induction fuel with
  | zero =>
    intro s res h
    simp only [starLoop, List.mem_singleton] at h
    exact ⟨0, by simp [h], by simp⟩
  | succ fuel ih =>
    intro s res h
    simp only [starLoop, List.mem_append, List.mem_flatMap, List.mem_map,
      List.mem_singleton] at h
    rcases h with ⟨r1, hr1, r2, hr2, hres⟩ | h
    · obtain ⟨n1, h1, hc1⟩ := hm s r1 hr1
      obtain ⟨n2, h2, hc2⟩ := ih r1.1 r2 hr2
      refine ⟨n1 + n2, by simp [← hres, h2, h1, List.drop_drop], ?_⟩
      intro c hc
      rw [List.take_add, List.mem_append] at hc
      rcases hc with hc | hc
      · exact hc1 c hc
      · exact hc2 c (by rwa [← h1] at hc)
    · exact ⟨0, by simp [h], by simp⟩

theorem reMatch_consumed (p : Char → Bool) :
    ∀ (r : RE), ClsOnly p r →
    ∀ (s : List Char) (res : List Char × Option (List Char)),
      res ∈ reMatch r s →
      ∃ n, res.1 = s.drop n ∧ ∀ c ∈ s.take n, p c = true := by
  intro r
  induction r with
  | eps =>
    intro _ s res h
    simp only [reMatch, List.mem_singleton] at h
    exact ⟨0, by simp [h], by simp⟩
  | cls q =>
    intro hcls s res h
    cases s with
    | nil => simp [reMatch] at h
    | cons c cs =>
      simp only [reMatch] at h
      split at h
      · simp only [List.mem_singleton] at h
        refine ⟨1, by simp [h], ?_⟩
        intro x hx
        simp only [List.take_succ_cons, List.take_zero, List.mem_singleton] at hx
        subst hx
        exact hcls x (by assumption)
      · simp at h
  | seq a b iha ihb =>
    intro hcls s res h
    simp only [reMatch, List.mem_flatMap, List.mem_map] at h
    obtain ⟨r1, hr1, r2, hr2, hres⟩ := h
    obtain ⟨n1, h1, hc1⟩ := iha hcls.1 s r1 hr1
    obtain ⟨n2, h2, hc2⟩ := ihb hcls.2 _ r2 hr2
    refine ⟨n1 + n2, by simp [← hres, h2, h1, List.drop_drop], ?_⟩
    intro c hc
    rw [List.take_add, List.mem_append] at hc
    rcases hc with hc | hc
    · exact hc1 c hc
    · exact hc2 c (by rwa [← h1] at hc)
  | opt r ih =>
    intro hcls s res h
    simp only [reMatch, List.mem_append, List.mem_singleton] at h
    rcases h with h | h
    · exact ih hcls s res h
    · exact ⟨0, by simp [h], by simp⟩
  | star r ih =>
    intro hcls s res h
    exact starLoop_consumed p _ (fun t u hu => ih hcls t u hu) _ s res h
  | grp r ih =>
    intro hcls s res h
    simp only [reMatch, List.mem_map] at h
    obtain ⟨r1, hr1, hres⟩ := h
    obtain ⟨n, hn, hc⟩ := ih hcls s r1 hr1
    exact ⟨n, by simp [← hres, hn], hc⟩

theorem starLoop_caps (p : Char → Bool)
    (m : List Char → List (List Char × Option (List Char)))
    (hm : ∀ s res, res ∈ m s → ∀ g, res.2 = some g → ∀ c ∈ g, p c = true) :
    ∀ (fuel : Nat) (s : List Char) (res : List Char × Option (List Char)),
      res ∈ starLoop m fuel s → ∀ g, res.2 = some g → ∀ c ∈ g, p c = true := by
  intro fuel
  induction fuel with
  | zero =>
    intro s res h g hg
    simp only [starLoop, List.mem_singleton] at h
    rw [h] at hg
    simp at hg
  | succ fuel ih =>
    intro s res h g hg
    simp only [starLoop, List.mem_append, List.mem_flatMap, List.mem_map,
      List.mem_singleton] at h
    rcases h with ⟨r1, hr1, r2, hr2, hres⟩ | h
    · rw [← hres] at hg
      simp only [mergeCaps] at hg
      rcases h2 : r2.2 with _ | g2
      · simp only [h2] at hg
        exact hm s r1 hr1 g hg
      · simp only [h2, Option.some.injEq] at hg
        subst hg
        exact ih r1.1 r2 hr2 _ h2
    · rw [h] at hg
      simp at hg

theorem reMatch_caps (p : Char → Bool) :
    ∀ (r : RE), GrpCls p r →
    ∀ (s : List Char) (res : List Char × Option (List Char)),
      res ∈ reMatch r s → ∀ g, res.2 = some g → ∀ c ∈ g, p c = true := by
  intro r
  induction r with
  | eps =>
    intro _ s res h g hg
    simp only [reMatch, List.mem_singleton] at h
    rw [h] at hg
    simp at hg
  | cls q =>
    intro _ s res h g hg
    cases s with
    | nil => simp [reMatch] at h
    | cons c cs =>
      simp only [reMatch] at h
      split at h
      · simp only [List.mem_singleton] at h
        rw [h] at hg
        simp at hg
      · simp at h
  | seq a b iha ihb =>
    intro hg2 s res h g hg
    simp only [reMatch, List.mem_flatMap, List.mem_map] at h
    obtain ⟨r1, hr1, r2, hr2, hres⟩ := h
    rw [← hres] at hg
    simp only [mergeCaps] at hg
    rcases h2 : r2.2 with _ | g2
    · simp only [h2] at hg
      exact iha hg2.1 s r1 hr1 g hg
    · simp only [h2, Option.some.injEq] at hg
      subst hg
      exact ihb hg2.2 _ r2 hr2 _ h2
  | opt r ih =>
    intro hgc s res h g hg
    simp only [reMatch, List.mem_append, List.mem_singleton] at h
    rcases h with h | h
    · exact ih hgc s res h g hg
    · rw [h] at hg
      simp at hg
  | star r ih =>
    intro hgc s res h g hg
    exact starLoop_caps p _ (fun t u hu => ih hgc t u hu) _ s res h g hg
  | grp r ih =>
    intro hgc s res h g hg
    simp only [reMatch, List.mem_map] at h
    obtain ⟨r1, hr1, hres⟩ := h
    rw [← hres] at hg
    simp only [Option.some.injEq] at hg
    obtain ⟨n, hn, hc⟩ := reMatch_consumed p r hgc s r1 hr1
    have hlen : r1.1.length = s.length - n := by rw [hn]; exact List.length_drop n s
    have hle : s.length - r1.1.length ≤ n := by omega
    intro c hcg
    rw [← hg] at hcg
    have : s.take (s.length - r1.1.length) = (s.take n).take (s.length - r1.1.length) := by
      rw [List.take_take, Nat.min_eq_left hle]
    rw [this] at hcg
    exact hc c (List.take_subset _ _ hcg)

theorem reSearch_caps (p : Char → Bool) (r : RE) (hr : GrpCls p r) :
    ∀ (s g : List Char), reSearch r s = some g → ∀ c ∈ g, p c = true := by
  intro s
  induction s with
  | nil =>
    intro g h c hc
    unfold reSearch at h
    split at h
    · rename_i res rest heq
      obtain rfl : res.2.getD [] = g := by injection h
      rcases h2 : res.2 with _ | g2
      · rw [h2] at hc
        simp at hc
      · rw [h2] at hc
        simp only [Option.getD_some] at hc
        exact reMatch_caps p r hr [] res (heq ▸ List.mem_cons_self res rest) g2 h2 c hc
    · simp at h
  | cons a rest ih =>
    intro g h c hc
    unfold reSearch at h
    split at h
    · rename_i res rest2 heq
      obtain rfl : res.2.getD [] = g := by injection h
      rcases h2 : res.2 with _ | g2
      · rw [h2] at hc
        simp at hc
      · rw [h2] at hc
        simp only [Option.getD_some] at hc
        exact reMatch_caps p r hr (a :: rest) res (heq ▸ List.mem_cons_self res rest2) g2 h2 c hc
    · exact ih g h c hc

/-! ### Helper lemmas about the strategies -/

theorem s1Loop_append_cont (d : Doc) :
    ∀ (l1 l2 : List ScriptData), (∀ sd ∈ l1, s1Script d sd = S1Out.cont) →
      s1Loop d (l1 ++ l2) = s1Loop d l2 := by
  intro l1
  induction l1 with
  | nil => intro l2 _; rfl
  | cons x xs ih =>
    intro l2 hx
    have h1 : s1Script d x = S1Out.cont := hx x (List.mem_cons_self x xs)
    simp only [List.cons_append, s1Loop, h1]
    exact ih l2 (fun sd hs => hx sd (List.mem_cons_of_mem x hs))

/-- Inversion for strategy 2: a success means its element scan found the
base fare and its disclaimer scan found the taxes, separately. -/
theorem strategy2_some_inv (d : Doc) (b t : ℚ) (h : strategy2 d = some (b, t)) :
    ∃ g, firstCapture rePPUSD d.priceTexts = some g ∧
      parseFloat (removeCommas g) = some b ∧
      ∃ dt tg, d.discText = some dt ∧ reSearch reTaxLabel dt.data = some tg ∧
        parseFloat (removeCommas tg) = some t := by
  unfold strategy2 at h
  split at h
  · exact absurd h (by simp)
  rename_i g hg
  split at h
  · exact absurd h (by simp)
  rename_i bp hb
  split at h
  · exact absurd h (by simp)
  rename_i dt hdt
  split at h
  · exact absurd h (by simp)
  rename_i tg htg
  split at h
  · exact absurd h (by simp)
  rename_i tx htx
  simp only [Option.some.injEq, Prod.mk.injEq] at h
  exact ⟨g, hg, by rw [hb, h.1], dt, tg, hdt, htg, by rw [htx, h.2]⟩

/-- Inversion for strategy 3: a success means a base-fare pattern and a
taxes pattern each matched the normalized text, separately. -/
theorem strategy3_some_inv (d : Doc) (b t : ℚ) (h : strategy3 d = some (b, t)) :
    ∃ g, firstPat farePatterns (normWS d.html.data) = some g ∧
      parseFloat (removeCommas g) = some b ∧
      ∃ tg, firstPat taxPatterns (normWS d.html.data) = some tg ∧
        parseFloat (removeCommas tg) = some t := by
  unfold strategy3 at h
  split at h
  · exact absurd h (by simp)
  rename_i g hg
  split at h
  · exact absurd h (by simp)
  rename_i bp hb
  split at h
  · exact absurd h (by simp)
  rename_i tg htg
  split at h
  · exact absurd h (by simp)
  rename_i tx htx
  simp only [Option.some.injEq, Prod.mk.injEq] at h
  exact ⟨g, hg, by rw [hb, h.1], tg, htg, by rw [htx, h.2]⟩

/-! ### The claims -/

/-- C4 (code bug in src/script.py lines 225-232): the claim — and the
script's own module docstring — say the credentials come from the
environment variables `TELEGRAM_BOT_TOKEN` / `TELEGRAM_CHAT_ID` and
that the process exits with a diagnostic when they are unset.  The code
hard-codes both credentials, so with a completely empty environment the
startup guard does not fire and the credentials used appear nowhere in
the environment. -/
theorem c4_hardcoded_credentials_no_exit :
    startupExits [] = false ∧
    envLookup [] "TELEGRAM_BOT_TOKEN" = none ∧
    envLookup [] "TELEGRAM_CHAT_ID" = none ∧
    usedBotToken [] = "7915288038:AAGzGuF0aMgaJoYYU-EzsA2tdIxRavQkjKc" ∧
    usedChatId [] = "-1002852664251" :=
  ⟨rfl, rfl, rfl, rfl, rfl⟩

/-- C5: a cycle whose fetch raises (retries exhausted) propagates the
exception to the cycle boundary, where it is caught: no notification is
sent, the snapshot store is untouched, the failure is logged, and
`runCycle` returns normally so the loop goes on to the next cycle. -/
theorem c5_fetch_failure_isolated :
    ∀ (st : StoreState) (nOk sOk : Bool),
      cycleBody ⟨Except.error (), st, nOk, sOk⟩ = Except.error () ∧
      runCycle ⟨Except.error (), st, nOk, sOk⟩ = ⟨none, st, true⟩ :=
  fun _ _ _ => ⟨rfl, rfl⟩

/-- C6: saving a pair with `save_last` and loading it back with
`load_last` recovers the JSON array `[base, taxes]`, whose tuple is the
identical pair of numeric values. -/
theorem c6_save_load_roundtrip :
    ∀ (st : StoreState) (b t : ℚ),
      load_last (save_last st true b t) = some (JVal.arr [JVal.num b, JVal.num t]) ∧
      pyTuple (JVal.arr [JVal.num b, JVal.num t]) = Except.ok [JVal.num b, JVal.num t] ∧
      tupleEq2 b t [JVal.num b, JVal.num t] = true := by
  intro st b t
  refine ⟨rfl, rfl, ?_⟩
  simp [tupleEq2, pyEqNum]

/-- C7: `load_last` returns "absent" exactly when the file is missing or
its content cannot be read/parsed; the parse failure only prints a
warning (the `Bool` of `load_last_full`) and is treated identically to
the file being absent. -/
theorem c7_load_degrades_to_absent :
    load_last_full StoreState.absent = (none, false) ∧
    load_last_full StoreState.malformed = (none, true) ∧
    (∀ st : StoreState,
      load_last st = none ↔ st = StoreState.absent ∨ st = StoreState.malformed) := by
  refine ⟨rfl, rfl, ?_⟩
  intro st
  cases st <;> simp [load_last, load_last_full]

theorem c7_witness : load_last StoreState.malformed = none :=
  (c7_load_degrades_to_absent.2.2 StoreState.malformed).mpr (Or.inr rfl)

/-- C2: the change condition is true exactly when no snapshot is stored
or the ordered pair differs from the stored pair under exact equality
(no tolerance); on the stored pair `[1899.0, 493.55]` and the identical
extraction, it is false and the cycle sends no notification. -/
theorem c2_change_detection_exact :
    (∀ b t : ℚ, has_changed b t none = Except.ok true) ∧
    (∀ b t a c : ℚ,
      has_changed b t (some (JVal.arr [JVal.num a, JVal.num c])) =
        Except.ok (decide (¬ (b = a ∧ t = c)))) ∧
    has_changed 1899 (49355 / 100)
      (some (JVal.arr [JVal.num 1899, JVal.num (49355 / 100)])) = Except.ok false ∧
    (∀ (d : Doc) (nOk sOk : Bool), parse_price d = some (1899, 49355 / 100) →
      runCycle ⟨Except.ok d,
          StoreState.content (JVal.arr [JVal.num 1899, JVal.num (49355 / 100)]), nOk, sOk⟩ =
        ⟨none, StoreState.content (JVal.arr [JVal.num 1899, JVal.num (49355 / 100)]), false⟩) := by
  refine ⟨fun b t => rfl, ?_, by decide!, ?_⟩
  · intro b t a c
    simp [has_changed, pyTuple, tupleEq2, pyEqNum, Except.map, decide_not]
  · intro d nOk sOk h
    simp [runCycle, cycleBody, h, load_last, load_last_full, has_changed, pyTuple,
      tupleEq2, pyEqNum, Except.map]

theorem c2_witness :
    parse_price docExtract1899 = some (1899, 49355 / 100) ∧
    runCycle ⟨Except.ok docExtract1899,
        StoreState.content (JVal.arr [JVal.num 1899, JVal.num (49355 / 100)]), true, true⟩ =
      ⟨none, StoreState.content (JVal.arr [JVal.num 1899, JVal.num (49355 / 100)]), false⟩ :=
  ⟨by decide!, c2_change_detection_exact.2.2.2 docExtract1899 true true (by decide!)⟩

/-- C9: a stored snapshot holding valid JSON that is not a two-number
array — the number `5` — is not degraded to "absent": `load_last`
returns it, `tuple(last)` raises, and the cycle fails at its boundary
with no notification and no snapshot write; only missing and unreadable
files yield "absent". -/
theorem c9_nonarray_snapshot_cycle_fails :
    load_last (StoreState.content (JVal.num 5)) = some (JVal.num 5) ∧
    (∀ b t : ℚ, has_changed b t (some (JVal.num 5)) = Except.error ()) ∧
    (∀ st : StoreState,
      load_last st = none ↔ st = StoreState.absent ∨ st = StoreState.malformed) ∧
    (∀ (d : Doc) (b t : ℚ) (nOk sOk : Bool), parse_price d = some (b, t) →
      runCycle ⟨Except.ok d, StoreState.content (JVal.num 5), nOk, sOk⟩ =
        ⟨none, StoreState.content (JVal.num 5), true⟩) := by
  refine ⟨rfl, fun b t => rfl, ?_, ?_⟩
  · intro st
    cases st <;> simp [load_last, load_last_full]
  · intro d b t nOk sOk h
    simp [runCycle, cycleBody, h, load_last, load_last_full, has_changed, pyTuple,
      Except.map]

theorem c9_witness :
    parse_price docExtract1999 = some (1999, 49355 / 100) ∧
    runCycle ⟨Except.ok docExtract1999, StoreState.content (JVal.num 5), true, true⟩ =
      ⟨none, StoreState.content (JVal.num 5), true⟩ :=
  ⟨by decide!,
   c9_nonarray_snapshot_cycle_fails.2.2.2 docExtract1999 1999 (49355 / 100) true true
     (by decide!)⟩

/-- C3: with a stored snapshot `[1899.0, 493.55]` and an extraction of
`(1999.0, 493.55)`, the change test fires, the cycle sends the alert —
whose text shows the new total as `$2,492.55` — and then writes the new
snapshot `[1999.0, 493.55]`. -/
theorem c3_price_rise_notifies :
    ∀ d : Doc, parse_price d = some (1999, 49355 / 100) →
      has_changed 1999 (49355 / 100)
        (load_last (StoreState.content (JVal.arr [JVal.num 1899, JVal.num (49355 / 100)]))) =
          Except.ok true ∧
      runCycle ⟨Except.ok d,
          StoreState.content (JVal.arr [JVal.num 1899, JVal.num (49355 / 100)]), true, true⟩ =
        ⟨some (buildMsg 1999 (49355 / 100)),
         StoreState.content (JVal.arr [JVal.num 1999, JVal.num (49355 / 100)]), false⟩ ∧
      hasSeg ("Total: $2,492.55").data (buildMsg 1999 (49355 / 100)).data = true := by
  intro d h
  have hc : has_changed 1999 (49355 / 100)
      (load_last (StoreState.content (JVal.arr [JVal.num 1899, JVal.num (49355 / 100)]))) =
        Except.ok true := by decide!
  refine ⟨hc, ?_, by decide!⟩
  simp only [runCycle, cycleBody, h, load_last, load_last_full] at hc ⊢
  rw [hc]
  simp [save_last]

theorem c3_witness :
    parse_price docExtract1999 = some (1999, 49355 / 100) ∧
    runCycle ⟨Except.ok docExtract1999,
        StoreState.content (JVal.arr [JVal.num 1899, JVal.num (49355 / 100)]), true, true⟩ =
      ⟨some (buildMsg 1999 (49355 / 100)),
       StoreState.content (JVal.arr [JVal.num 1999, JVal.num (49355 / 100)]), false⟩ :=
  ⟨by decide!, (c3_price_rise_notifies docExtract1999 (by decide!)).2.1⟩

/-- C8: `parse_price` raises (returns `none`) exactly when none of the
three strategies yields both fields; whenever it returns a pair, that
pair came from one of the strategies (the first to fully succeed). -/
theorem c8_error_iff_all_strategies_fail :
    ∀ d : Doc,
      (parse_price d = none ↔
        strategy1 d = none ∧ strategy2 d = none ∧ strategy3 d = none) ∧
      (∀ p, parse_price d = some p →
        strategy1 d = some p ∨ strategy2 d = some p ∨ strategy3 d = some p) ∧
      (∀ p, strategy1 d = some p → parse_price d = some p) := by
  intro d
  unfold parse_price
  rcases h1 : strategy1 d with _ | p1
  · rcases h2 : strategy2 d with _ | p2
    · rcases h3 : strategy3 d with _ | p3 <;> simp [h3]
    · simp
  · simp

theorem c8_witness :
    parse_price docEmpty = none :=
  ((c8_error_iff_all_strategies_fail docEmpty).1).mpr ⟨by decide!, by decide!, by decide!⟩

/-- C1: when strategy 1 reaches an Offer block with a parseable numeric
price but the disclaimer tax lookup finds nothing, strategy 1 yields no
result at all — the pipeline goes on to strategy 2 and then strategy 3,
the partially found base fare is discarded (the final result is a
function of the later strategies only), and each later strategy succeeds
only by finding base fare and taxes on its own. -/
theorem c1_partial_strategy1_falls_through :
    ∀ (d : Doc) (pre post : List ScriptData) (pv : PyVal) (bp : ℚ),
      d.scripts = pre ++ ScriptData.dict (some "Offer") (some pv) :: post →
      (∀ sd ∈ pre, s1Script d sd = S1Out.cont) →
      pyFloat pv = FloatRes.ok bp →
      findTax1 d.disc1 = none →
      strategy1 d = none ∧
      parse_price d = (match strategy2 d with
        | some p => some p
        | none => strategy3 d) ∧
      (∀ b t, strategy2 d = some (b, t) →
        ∃ g, firstCapture rePPUSD d.priceTexts = some g ∧
          parseFloat (removeCommas g) = some b ∧
          ∃ dt tg, d.discText = some dt ∧ reSearch reTaxLabel dt.data = some tg ∧
            parseFloat (removeCommas tg) = some t) ∧
      (∀ b t, strategy3 d = some (b, t) →
        ∃ g, firstPat farePatterns (normWS d.html.data) = some g ∧
          parseFloat (removeCommas g) = some b ∧
          ∃ tg, firstPat taxPatterns (normWS d.html.data) = some tg ∧
            parseFloat (removeCommas tg) = some t) := by
  intro d pre post pv bp hs hpre hbp htax
  have hbrk : s1Script d (ScriptData.dict (some "Offer") (some pv)) = S1Out.brk := by
    simp [s1Script, hbp, htax]
  have h1 : strategy1 d = none := by
    unfold strategy1
    rw [hs, s1Loop_append_cont d pre _ hpre]
    simp [s1Loop, hbrk]
  refine ⟨h1, ?_, fun b t h => strategy2_some_inv d b t h,
    fun b t h => strategy3_some_inv d b t h⟩
  simp only [parse_price, h1]

theorem c1_witness :
    strategy1 docOfferNoTax = none ∧
    parse_price docOfferNoTax = (match strategy2 docOfferNoTax with
      | some p => some p
      | none => strategy3 docOfferNoTax) := by
  have h := c1_partial_strategy1_falls_through docOfferNoTax [] [] (PyVal.pstr "1899") 1899
    rfl (fun sd hs => absurd hs (List.not_mem_nil sd)) (by decide!) rfl
  exact ⟨h.1, h.2.1⟩

/-- C10: the base-fare pattern `\$([0-9,]+)\s*PP\s*/\s*USD` of strategy 2
(also strategy 3's first pattern) can only capture digit/comma strings,
so it matches only whole-dollar amounts; on the cents-carrying text
`"$1,899.50 PP / USD"` it does not match at all and neither scanning
strategy extracts that base fare. -/
theorem c10_ppusd_whole_dollars_only :
    (∀ s g : List Char, reSearch rePPUSD s = some g → ∀ c ∈ g, isDigCom c = true) ∧
    reSearch rePPUSD ("$1,899.50 PP / USD").data = none ∧
    firstCapture rePPUSD ["$1,899.50 PP / USD"] = none ∧
    strategy2 docCents = none ∧
    strategy3 docCents = none := by
  refine ⟨?_, by decide!, by decide!, by decide!, by decide!⟩
  have hgrp : GrpCls isDigCom rePPUSD := by
    simp [GrpCls, ClsOnly, rePPUSD, rcat, intGrp, rplus, wsStar, chr, chrI]
  exact fun s g h => reSearch_caps isDigCom rePPUSD hgrp s g h

theorem c10_witness :
    reSearch rePPUSD ("$1,899 PP / USD").data = some ['1', ',', '8', '9', '9'] ∧
    (∀ c ∈ ['1', ',', '8', '9', '9'], isDigCom c = true) :=
  ⟨by decide!,
   fun c hc => c10_ppusd_whole_dollars_only.1 ("$1,899 PP / USD").data
     ['1', ',', '8', '9', '9'] (by decide!) c hc⟩

end NclWatch
